import Mathlib

/-!
Verification development for the network-inventory collection pipeline
(producer lambda: registry scan, work expansion, SNS dispatch; consumer
lambda: SQS batch consumption, per-account-region EC2 network collection,
S3 partitioned JSONL persistence).

The embedding models Python values as the inductive type PVal, Python
dicts as association lists with distinct keys, and the effectful calls
(STS, EC2 describe calls, S3 put, SNS publish, DynamoDB scan, clock) as
explicit oracle inputs.  Python json.dumps is embedded as a character
level serializer, and json.loads as a character level parser for the
fragment the pipeline exchanges (flat objects whose values are strings
or null).
-/

/-- Embedding of a Python value as exchanged by the pipeline. -/
inductive PVal where
  | pnone : PVal
  | pbool : Bool → PVal
  | pint : Int → PVal
  | pstr : String → PVal
  | plist : List PVal → PVal
  | pdict : List (String × PVal) → PVal
deriving Repr, BEq

/-- A Python dict with string keys, as an association list. -/
abbrev Dict := List (String × PVal)

/-- The opening brace character. -/
def lbrace : Char := Char.ofNat 123

/-- The closing brace character. -/
def rbrace : Char := Char.ofNat 125

/-- Backslash escaping of the two characters that json.dumps escapes with a
single backslash; control characters and non-ASCII text (which CPython
escapes as backslash-u sequences) are outside the fragment this model
serializes bit-faithfully. -/
def escapeChars : List Char → List Char
  | [] => []
  | c :: cs =>
    (if c = '"' ∨ c = '\\' then '\\' :: c :: [] else c :: []) ++ escapeChars cs

/-- Serialization of a Python string literal as a JSON string token. -/
def jstring (s : String) : List Char := '"' :: escapeChars s.data ++ ('"' :: [])

mutual

/-- Embedding of json.dumps with its default separators (", " and ": "). -/
def pdumps : PVal → List Char
  | .pnone => 'n' :: 'u' :: 'l' :: 'l' :: []
  | .pbool true => 't' :: 'r' :: 'u' :: 'e' :: []
  | .pbool false => 'f' :: 'a' :: 'l' :: 's' :: 'e' :: []
  | .pint n => (toString n).data
  | .pstr s => jstring s
  | .plist xs => '[' :: pdumpsElems xs ++ (']' :: [])
  | .pdict kvs => lbrace :: pdumpsMembers kvs ++ (rbrace :: [])

/-- Comma separated serialization of JSON array elements. -/
def pdumpsElems : List PVal → List Char
  | [] => []
  | x :: [] => pdumps x
  | x :: y :: xs => pdumps x ++ (',' :: ' ' :: pdumpsElems (y :: xs))

/-- Comma separated serialization of JSON object members. -/
def pdumpsMembers : List (String × PVal) → List Char
  | [] => []
  | (k, v) :: [] => jstring k ++ (':' :: ' ' :: pdumps v)
  | (k, v) :: kv :: kvs =>
    jstring k ++ (':' :: ' ' :: pdumps v) ++ (',' :: ' ' :: pdumpsMembers (kv :: kvs))

end

/-- JSON insignificant whitespace. -/
def isWsChar (c : Char) : Bool := c = ' ' ∨ c = '\t' ∨ c = '\n' ∨ c = '\r'

/-- Drop leading JSON whitespace, as json.loads does between tokens. -/
def skipWs : List Char → List Char
  | [] => []
  | c :: cs => if isWsChar c then skipWs cs else c :: cs

/-- Parse the body of a JSON string token after the opening quote, undoing
the backslash escapes produced by escapeChars. -/
def parseStrBody : List Char → Option (List Char × List Char)
  | [] => none
  | c :: rest =>
    if c = '"' then some ([], rest)
    else if c = '\\' then
      match rest with
      | [] => none
      | d :: rest2 =>
        if d = '"' ∨ d = '\\' then
          (parseStrBody rest2).map (fun p => (d :: p.1, p.2))
        else none
    else (parseStrBody rest).map (fun p => (c :: p.1, p.2))

/-- Parse one JSON string token. -/
def parseString (cs : List Char) : Option (String × List Char) :=
  match cs with
  | [] => none
  | c :: rest =>
    if c = '"' then (parseStrBody rest).map (fun p => (String.mk p.1, p.2))
    else none

/-- Parse one JSON value of the fragment the pipeline exchanges inside
objects: a string or null. -/
def parseVal (cs : List Char) : Option (PVal × List Char) :=
  if cs.take 4 = 'n' :: 'u' :: 'l' :: 'l' :: [] then some (.pnone, cs.drop 4)
  else (parseString cs).map (fun p => (.pstr p.1, p.2))

/-- Parse the members of a nonempty JSON object together with the closing
brace; fueled recursion, one unit of fuel per member. -/
def parseMembers : Nat → List Char → Option (List (String × PVal) × List Char)
  | 0, _ => none
  | Nat.succ fuel, cs =>
    match parseString (skipWs cs) with
    | none => none
    | some (k, cs1) =>
      match skipWs cs1 with
      | [] => none
      | c :: cs3 =>
        if c = ':' then
          match parseVal (skipWs cs3) with
          | none => none
          | some (v, cs4) =>
            match skipWs cs4 with
            | [] => none
            | d :: cs6 =>
              if d = ',' then (parseMembers fuel cs6).map (fun p => ((k, v) :: p.1, p.2))
              else if d = rbrace then some ((k, v) :: [], cs6)
              else none
        else none

/-- Embedding of json.loads for the fragment the pipeline exchanges: a flat
JSON object whose values are strings or null, with the whole input consumed. -/
def ploadsFlat (cs : List Char) : Option PVal :=
  match skipWs cs with
  | [] => none
  | c :: rest =>
    if c = lbrace then
      match skipWs rest with
      | [] => none
      | d :: rest2 =>
        if d = rbrace then (if skipWs rest2 = [] then some (.pdict []) else none)
        else
          match parseMembers (rest.length + 1) rest with
          | none => none
          | some (kvs, rest3) => if skipWs rest3 = [] then some (.pdict kvs) else none
    else none

/-- Values that can appear in the flat objects the pipeline exchanges. -/
def isFlatVal : PVal → Bool
  | .pnone => true
  | .pstr _ => true
  | _ => false

/-- A flat Python dict: every value is a string or None. -/
def FlatDict (kvs : List (String × PVal)) : Prop := ∀ kv ∈ kvs, isFlatVal kv.2 = true

theorem stringMk_data (s : String) : String.mk s.data = s := rfl

theorem skipWs_cons_of_not_ws (c : Char) (cs : List Char) (h : isWsChar c = false) :
    skipWs (c :: cs) = c :: cs := by
  simp [skipWs, h]

theorem parseStrBody_escape (s rest : List Char) :
    parseStrBody (escapeChars s ++ ('"' :: rest)) = some (s, rest) := by
  induction s with
  | nil =>
    rw [escapeChars, List.nil_append, parseStrBody.eq_def]
    simp
  | cons c cs ih =>
    by_cases h : c = '"' ∨ c = '\\'
    · simp only [escapeChars, if_pos h, List.cons_append, List.append_assoc, List.nil_append]
      rw [parseStrBody.eq_def]
      simp only []
      rcases h with h | h <;> subst h <;> simp [ih]
    · simp only [escapeChars, if_neg h, List.cons_append, List.append_assoc, List.nil_append]
      rw [parseStrBody.eq_def]
      push_neg at h
      simp [h.1, h.2, ih]

theorem parseString_jstring (s : String) (rest : List Char) :
    parseString (jstring s ++ rest) = some (s, rest) := by
  simp only [jstring, List.cons_append, List.append_assoc, List.singleton_append]
  rw [parseString.eq_def]
  simp [parseStrBody_escape, stringMk_data]

theorem jstring_cons (s : String) (rest : List Char) :
    jstring s ++ rest = '"' :: (escapeChars s.data ++ ('"' :: rest)) := by
  simp [jstring]

theorem jstring_ne_ws (s : String) (rest : List Char) :
    skipWs (jstring s ++ rest) = jstring s ++ rest := by
  rw [jstring_cons, skipWs_cons_of_not_ws]
  rfl

theorem parseVal_round (v : PVal) (rest : List Char) (hflat : isFlatVal v = true) :
    parseVal (pdumps v ++ rest) = some (v, rest) := by
  cases v with
  | pnone =>
    rw [pdumps, parseVal]
    simp
  | pstr s =>
    rw [pdumps, parseVal]
    rw [if_neg]
    · rw [parseString_jstring]
      rfl
    · rw [jstring_cons]
      simp [List.take]
  | pbool b => simp [isFlatVal] at hflat
  | pint n => simp [isFlatVal] at hflat
  | plist xs => simp [isFlatVal] at hflat
  | pdict kvs => simp [isFlatVal] at hflat

theorem skipWs_colon (cs : List Char) : skipWs (':' :: cs) = ':' :: cs := rfl

theorem skipWs_comma (cs : List Char) : skipWs (',' :: cs) = ',' :: cs := rfl

theorem skipWs_space (cs : List Char) : skipWs (' ' :: cs) = skipWs cs := rfl

theorem skipWs_rbrace (cs : List Char) : skipWs (rbrace :: cs) = rbrace :: cs := rfl

theorem pdumps_flat_ne_ws (v : PVal) (hflat : isFlatVal v = true) (z : List Char) :
    skipWs (pdumps v ++ z) = pdumps v ++ z := by
  cases v with
  | pnone => rfl
  | pstr s => rw [pdumps]; exact jstring_ne_ws s z
  | pbool b => simp [isFlatVal] at hflat
  | pint n => simp [isFlatVal] at hflat
  | plist xs => simp [isFlatVal] at hflat
  | pdict kvs => simp [isFlatVal] at hflat

theorem parseMembers_step (k : String) (v : PVal) (hv : isFlatVal v = true)
    (tail : List Char) (fuel : Nat) :
    parseMembers (Nat.succ fuel) (jstring k ++ (':' :: ' ' :: (pdumps v ++ tail))) =
      (match skipWs tail with
       | [] => none
       | d :: cs6 =>
         if d = ',' then (parseMembers fuel cs6).map (fun p => ((k, v) :: p.1, p.2))
         else if d = rbrace then some ((k, v) :: [], cs6)
         else none) := by
  rw [parseMembers]
  rw [jstring_ne_ws, parseString_jstring]
  simp only [skipWs_colon, skipWs_space, pdumps_flat_ne_ws v hv,
    parseVal_round v _ hv]
  simp

theorem skipWs_quote (cs : List Char) : skipWs ('"' :: cs) = '"' :: cs := rfl

theorem skipWs_lbrace (cs : List Char) : skipWs (lbrace :: cs) = lbrace :: cs := rfl

theorem parseMembers_ws (fuel : Nat) (c : Char) (cs : List Char) (h : isWsChar c = true) :
    parseMembers fuel (c :: cs) = parseMembers fuel cs := by
  cases fuel with
  | zero => rfl
  | succ f =>
    rw [parseMembers, parseMembers]
    rw [show skipWs (c :: cs) = skipWs cs by simp [skipWs, h]]

theorem parseMembers_round :
    ∀ (kvs : List (String × PVal)) (fuel : Nat) (rest : List Char),
      kvs ≠ [] → FlatDict kvs → kvs.length ≤ fuel →
      parseMembers fuel (pdumpsMembers kvs ++ (rbrace :: rest)) = some (kvs, rest)
  | [], _, _, hne, _, _ => absurd rfl hne
  | (k, v) :: [], fuel, rest, _, hflat, hfuel => by
    have hv : isFlatVal v = true := hflat (k, v) (by simp)
    cases fuel with
    | zero => simp at hfuel
    | succ f =>
      rw [pdumpsMembers]
      simp only [List.cons_append, List.append_assoc]
      rw [parseMembers_step k v hv]
      rw [skipWs_rbrace]
      simp [show rbrace ≠ ',' by decide]
  | (k, v) :: kv2 :: kvs, fuel, rest, _, hflat, hfuel => by
    have hv : isFlatVal v = true := hflat (k, v) (by simp)
    cases fuel with
    | zero => simp at hfuel
    | succ f =>
      rw [pdumpsMembers]
      simp only [List.cons_append, List.append_assoc]
      rw [parseMembers_step k v hv]
      rw [skipWs_comma]
      have hrec := parseMembers_round (kv2 :: kvs) f rest (by simp)
        (fun kv h => hflat kv (List.mem_cons_of_mem _ h)) (by simpa using hfuel)
      simp only [if_pos rfl]
      rw [parseMembers_ws f ' ' _ rfl, hrec]
      rfl

theorem pdumpsMembers_length : ∀ kvs : List (String × PVal),
    kvs.length ≤ (pdumpsMembers kvs).length
  | [] => Nat.le_refl _
  | (k, v) :: [] => by
    simp [pdumpsMembers, jstring]
  | (k, v) :: kv2 :: kvs => by
    have ih := pdumpsMembers_length (kv2 :: kvs)
    simp only [pdumpsMembers, List.length_append, List.length_cons, jstring] at ih ⊢
    omega

theorem pdumpsMembers_cons_quote (k : String) (v : PVal) (tail : Dict) (z : List Char) :
    ∃ t, pdumpsMembers ((k, v) :: tail) ++ z = '"' :: t := by
  cases tail with
  | nil =>
    exact ⟨escapeChars k.data ++ ('"' :: ((':' :: ' ' :: pdumps v) ++ z)), by
      rw [pdumpsMembers, List.append_assoc, jstring_cons]⟩
  | cons kv2 t2 =>
    exact ⟨escapeChars k.data ++
        ('"' :: ((':' :: ' ' :: pdumps v) ++ ((',' :: ' ' :: pdumpsMembers (kv2 :: t2)) ++ z))), by
      rw [pdumpsMembers, List.append_assoc, List.append_assoc, jstring_cons]⟩

theorem ploads_round (kvs : Dict) (hflat : FlatDict kvs) :
    ploadsFlat (pdumps (.pdict kvs)) = some (.pdict kvs) := by
  cases kvs with
  | nil => rfl
  | cons kv tail =>
    obtain ⟨k, v⟩ := kv
    have hin : pdumps (.pdict ((k, v) :: tail)) =
        lbrace :: (pdumpsMembers ((k, v) :: tail) ++ (rbrace :: [])) := by
      rw [pdumps, List.cons_append]
    obtain ⟨t, ht⟩ := pdumpsMembers_cons_quote k v tail (rbrace :: [])
    rw [hin, ploadsFlat.eq_def, ht, skipWs_lbrace]
    have hqb : ¬ ('"' = rbrace) := by decide
    simp only [skipWs_quote, if_pos rfl, if_neg hqb]
    rw [← ht]
    rw [parseMembers_round ((k, v) :: tail) _ [] (by simp) hflat ?hfuel]
    · rfl
    case hfuel =>
      have hlen := pdumpsMembers_length ((k, v) :: tail)
      simp only [List.length_append, List.length_cons] at hlen ⊢
      omega

/-- Python dict merge as in a double-splat literal: the second dict's entries
update the first dict's entries in place on key collision, then the second
dict's fresh keys are appended in order.  This is the semantics of the
source expression building each record from base metadata and one resource
dict (consumer lambda_function.py, store_to_s3). -/
def pyUpdate (a b : Dict) : Dict :=
  a.map (fun kv => match b.lookup kv.1 with | some v => (kv.1, v) | none => kv)
  ++ b.filter (fun kv => (a.lookup kv.1).isNone)

theorem lookup_append (k : String) (l1 l2 : List (String × PVal)) :
    (l1 ++ l2).lookup k = ((l1.lookup k).or (l2.lookup k)) := by
  induction l1 with
  | nil => simp
  | cons kv l1 ih =>
    obtain ⟨k0, v0⟩ := kv
    by_cases h : k == k0
    · simp [List.lookup, h]
    · simp only [List.cons_append, List.lookup, h]
      exact ih

theorem lookup_map_update (k : String) (a b : Dict) :
    (a.map (fun kv => match b.lookup kv.1 with | some v => (kv.1, v) | none => kv)).lookup k =
      (match a.lookup k with
       | none => none
       | some v => some ((b.lookup k).getD v)) := by
  induction a with
  | nil => simp
  | cons kv a ih =>
    obtain ⟨k0, v0⟩ := kv
    have himg : (fun kv : String × PVal =>
        match b.lookup kv.1 with | some v => (kv.1, v) | none => kv) (k0, v0) =
        (k0, (b.lookup k0).getD v0) := by
      cases h : b.lookup k0 <;> simp [h]
    by_cases h : k == k0
    · have hk : k = k0 := by simpa using h
      subst hk
      simp [List.lookup, himg]
    · simp only [List.map_cons, himg, List.lookup, h]
      exact ih

theorem lookup_filter_isNone (k : String) (a b : Dict) :
    (b.filter (fun kv => (a.lookup kv.1).isNone)).lookup k =
      (if (a.lookup k).isNone then b.lookup k else none) := by
  induction b with
  | nil => simp
  | cons kv b ih =>
    obtain ⟨k0, v0⟩ := kv
    by_cases h : k == k0
    · have hk : k = k0 := by simpa using h
      subst hk
      cases ha : (a.lookup k).isNone <;>
        simp [List.filter_cons, ha, List.lookup, ih]
    · cases ha : (a.lookup k0).isNone <;>
        simp [List.filter_cons, ha, List.lookup, h, ih]

/-- Lookup in a Python dict double-splat merge: the second dict wins when it
has the key, otherwise the first dict's value survives. -/
theorem pyUpdate_lookup (a b : Dict) (k : String) :
    (pyUpdate a b).lookup k = (b.lookup k).or (a.lookup k) := by
  rw [pyUpdate, lookup_append, lookup_map_update, lookup_filter_isNone]
  cases ha : a.lookup k <;> cases hb : b.lookup k <;> simp [ha, hb]

/-- Embedding of a newline join of serialized records as the consumer builds
the JSONL body. -/
def joinNL : List (List Char) → List Char
  | [] => []
  | x :: [] => x
  | x :: y :: xs => x ++ ('\n' :: joinNL (y :: xs))

/-- Number of newline delimited lines in a nonempty body. -/
def lineCount (body : List Char) : Nat := (body.count '\n') + 1

theorem joinNL_count : ∀ parts : List (List Char), parts ≠ [] →
    (∀ p ∈ parts, p.count '\n' = 0) → (joinNL parts).count '\n' = parts.length - 1
  | [], hne, _ => absurd rfl hne
  | x :: [], _, hnl => by
    rw [joinNL]
    simp [hnl x (by simp)]
  | x :: y :: xs, _, hnl => by
    rw [joinNL]
    have ih := joinNL_count (y :: xs) (by simp) (fun p hp => hnl p (List.mem_cons_of_mem _ hp))
    simp only [List.count_append, List.count_cons, hnl x (by simp), ih, List.length_cons]
    simp

/-- Error value standing for a raised Python exception; the message mirrors
what str would show for the exception. -/
structure Err where
  msg : String
deriving Repr, BEq, DecidableEq

namespace Producer

/-- The regions attribute of a registry item: the source handles both a list
and a set (DynamoDB string sets arrive as Python sets); a Python set is
represented by its list of distinct elements. -/
inductive PyRegions where
  | ofList : List String → PyRegions
  | ofSet : List String → PyRegions
deriving Repr, DecidableEq

/-- Python set construction from an enumeration of elements: duplicates
collapse; the representative order is that of List.dedup (CPython's
iteration order is unspecified and immaterial to the claims). -/
def pySet (xs : List String) : PyRegions := .ofSet xs.dedup

/-- One account metadata item from the registry scan (an AccountRecord).
account_id is the registry's key attribute; the remaining attributes are
optional, matching the source's dict .get accesses. -/
structure Account where
  account_id : String
  account_name : Option String
  business_unit : Option String
  status : Option String
  regions : Option PyRegions
deriving Repr, DecidableEq

/-- Embedding of str.lower: lower-case each character (faithful for the
ASCII statuses the registry stores). -/
def pyLower (s : String) : String := String.mk (s.data.map Char.toLower)

/-- The case-insensitive active-status test used by filter_active_accounts. -/
def is_active (acc : Account) : Bool :=
  (pyLower (acc.status.getD ("")) == "active")

/-- Embedding of filter_active_accounts (producer lambda_function.py). -/
def filter_active_accounts (accounts : List Account) : List Account :=
  accounts.filter is_active

/-- Embedding of expand_account_regions (producer lambda_function.py): a
missing regions attribute defaults to the empty list, a set-typed value is
converted to a list, and one (account, region) pair is produced per entry. -/
def expand_account_regions (account : Account) : List (Account × String) :=
  let regions :=
    match account.regions.getD (PyRegions.ofList []) with
    | .ofList xs => xs
    | .ofSet xs => xs
  regions.map (fun r => (account, r))

/-- An optional string attribute as it lands in a payload dict: absent
becomes None. -/
def optStrVal : Option String → PVal
  | some s => .pstr s
  | none => .pnone

/-- Embedding of create_event_payload (producer lambda_function.py), with
the field order of the source dict literal. -/
def create_event_payload (account : Account) (region : String) (now : String) : Dict :=
  ("account_id", .pstr account.account_id) ::
  ("account_name", .pstr (account.account_name.getD ("Unknown"))) ::
  ("business_unit", optStrVal account.business_unit) ::
  ("region", .pstr region) ::
  ("timestamp", .pstr now) :: []

/-- Oracle inputs to one dispatch run: the registry scan outcome (the
paginated scan collapses to its final item list or a raised error), the
outcome of the n-th SNS publish attempt, and the run timestamp. -/
structure Env where
  scan_result : Except Err (List Account)
  publish_outcome : Nat → Except Err Unit
  now : String

/-- The publish loop of the producer lambda_handler with its three counters
(total_events, success_count, failure_count); the n-th publish attempt of
the run is resolved by the oracle at index n. -/
def publish_loop (pub : Nat → Except Err Unit) :
    Nat × Nat × Nat → List (Account × String) → Nat × Nat × Nat
  | acc, [] => acc
  | (total, success, failed), _item :: rest =>
    match pub total with
    | .ok _ => publish_loop pub (total + 1, success + 1, failed) rest
    | .error _ => publish_loop pub (total + 1, success, failed + 1) rest

/-- Result of the producer handler: the literal statusCode plus the body
dict of the source return expression. -/
structure HandlerResult where
  statusCode : Nat
  body : Dict
deriving Repr

/-- Embedding of the producer lambda_handler: scan the registry, filter to
active accounts, expand each account by regions, publish one event per
(account, region) pair with per-item failure counting, and return the
summary; a registry scan failure aborts the run with statusCode 500. -/
def lambda_handler (env : Env) : HandlerResult :=
  match env.scan_result with
  | .error e =>
    { statusCode := 500,
      body := ("message", .pstr ("Error in network data collection process")) ::
        ("error", .pstr e.msg) :: [] }
  | .ok accounts =>
    let active := filter_active_accounts accounts
    let items := (active.map expand_account_regions).flatten
    match publish_loop env.publish_outcome (0, 0, 0) items with
    | (_total, success, failed) =>
      { statusCode := 200,
        body := ("message", .pstr ("Network data collection process completed")) ::
          ("total_accounts", .pint accounts.length) ::
          ("active_accounts", .pint active.length) ::
          ("total_events_published", .pint success) ::
          ("failed_events", .pint failed) ::
          ("timestamp", .pstr env.now) :: [] }

/-- Number of successful publish outcomes among n attempts starting at
attempt index t. -/
def pubOkCount (pub : Nat → Except Err Unit) (t n : Nat) : Nat :=
  match n with
  | 0 => 0
  | m + 1 => (match pub t with | .ok _ => 1 | .error _ => 0) + pubOkCount pub (t + 1) m

/-- Number of failed publish outcomes among n attempts starting at
attempt index t. -/
def pubErrCount (pub : Nat → Except Err Unit) (t n : Nat) : Nat :=
  match n with
  | 0 => 0
  | m + 1 => (match pub t with | .ok _ => 0 | .error _ => 1) + pubErrCount pub (t + 1) m

theorem pubCounts_total (pub : Nat → Except Err Unit) (n : Nat) :
    ∀ t, pubOkCount pub t n + pubErrCount pub t n = n := by
  induction n with
  | zero => intro t; rfl
  | succ m ih =>
    intro t
    rw [pubOkCount, pubErrCount]
    have h2 := ih (t + 1)
    cases h : pub t <;> simp only [h] <;> omega

theorem publish_loop_spec (pub : Nat → Except Err Unit) :
    ∀ (items : List (Account × String)) (total success failed : Nat),
      publish_loop pub (total, success, failed) items =
        (total + items.length, success + pubOkCount pub total items.length,
         failed + pubErrCount pub total items.length) := by
  intro items
  induction items with
  | nil => intro t s f; simp [publish_loop, pubOkCount, pubErrCount]
  | cons item rest ih =>
    intro t s f
    cases h : pub t with
    | ok u =>
      have hstep : publish_loop pub (t, s, f) (item :: rest) =
          publish_loop pub (t + 1, s + 1, f) rest := by
        rw [publish_loop, h]
      have hok : pubOkCount pub t (rest.length + 1) = 1 + pubOkCount pub (t + 1) rest.length := by
        rw [pubOkCount, h]
      have herr : pubErrCount pub t (rest.length + 1) = pubErrCount pub (t + 1) rest.length := by
        rw [pubErrCount, h]
        simp
      rw [hstep, ih, List.length_cons, hok, herr]
      simp only [Prod.mk.injEq]
      exact ⟨by omega, by omega, trivial⟩
    | error e =>
      have hstep : publish_loop pub (t, s, f) (item :: rest) =
          publish_loop pub (t + 1, s, f + 1) rest := by
        rw [publish_loop, h]
      have hok : pubOkCount pub t (rest.length + 1) = pubOkCount pub (t + 1) rest.length := by
        rw [pubOkCount, h]
        simp
      have herr : pubErrCount pub t (rest.length + 1) = 1 + pubErrCount pub (t + 1) rest.length := by
        rw [pubErrCount, h]
      rw [hstep, ih, List.length_cons, hok, herr]
      simp only [Prod.mk.injEq]
      exact ⟨by omega, trivial, by omega⟩

end Producer

/-- A second-granularity UTC clock reading, the resolution of the
%Y%m%d-%H%M%S format used for partition timestamps. -/
structure UTCTime where
  year : Nat
  month : Nat
  day : Nat
  hour : Nat
  minute : Nat
  second : Nat
deriving Repr, DecidableEq

/-- Zero padding to two digits as the strftime fields %m %d %H %M %S produce. -/
def pad2 (n : Nat) : String := if n < 10 then "0" ++ toString n else toString n

/-- Zero padding to four digits as the strftime field %Y produces. -/
def pad4 (n : Nat) : String :=
  if n < 10 then "000" ++ toString n
  else if n < 100 then "00" ++ toString n
  else if n < 1000 then "0" ++ toString n
  else toString n

/-- Embedding of strftime with format %Y%m%d-%H%M%S as used by store_to_s3:
one second-granularity timestamp string. -/
def strftimeTs (t : UTCTime) : String :=
  pad4 t.year ++ pad2 t.month ++ pad2 t.day ++ "-" ++
    pad2 t.hour ++ pad2 t.minute ++ pad2 t.second

namespace Consumer

/-- Temporary credentials returned by the delegation call. -/
structure Creds where
  access_key_id : String
  secret_access_key : String
  session_token : String
deriving Repr, DecidableEq

/-- The client handle built by get_ec2_client: either the collector's own
identity scoped to a region, or a delegated client built from an assumed
role's credentials together with the role and session identifiers used. -/
inductive Ec2Client where
  | sameIdentity : String → Ec2Client
  | delegated : String → String → String → Creds → Ec2Client
deriving Repr, DecidableEq

/-- Oracle inputs for processing one SQS message: the resolved caller
identity, the outcome the delegation call would have, the outcomes of the
three describe calls (raw response items as dicts), the two clock
readings, the outcome of each S3 put by key, and the key prefix from the
environment. -/
structure Env where
  caller_identity : String
  assume_role_result : Except Err Creds
  vpcs_response : Except Err (List Dict)
  subnets_response : Except Err (List Dict)
  sgs_response : Except Err (List Dict)
  collection_now : String
  store_now : UTCTime
  put_outcome : String → Except Err Unit
  pfx : String

/-- Embedding of get_ec2_client (consumer lambda_function.py): same-account
requests return a locally scoped client with no delegation step;
cross-account requests build the fixed role identifier and the session
name embedding account and region, and either return a delegated client
from the assumed credentials or re-raise the delegation failure. -/
def get_ec2_client (env : Env) (account_id region : String) : Except Err Ec2Client :=
  if account_id == env.caller_identity then .ok (.sameIdentity region)
  else
    let role_arn := "arn:aws:iam::" ++ account_id ++ ":role/NetworkDataCollectionReadOnly"
    let session_name := "NetworkDataCollection-" ++ account_id ++ "-" ++ region
    match env.assume_role_result with
    | .ok creds => .ok (.delegated region role_arn session_name creds)
    | .error e => .error e

/-- The comprehension over response items: a failing body (a Python
KeyError or TypeError) aborts the whole comprehension. -/
def mapOpt : (Dict → Option Dict) → List Dict → Option (List Dict)
  | _, [] => some []
  | f, x :: xs =>
    match f x, mapOpt f xs with
    | some y, some ys => some (y :: ys)
    | _, _ => none

/-- Python len for the values the EC2 responses carry. -/
def pvalLen : PVal → Option Nat
  | .plist xs => some xs.length
  | .pstr s => some s.length
  | .pdict kvs => some kvs.length
  | _ => none

/-- Normalization of one raw VPC item (the collect_vpcs comprehension
body): subscripted keys raise KeyError when absent; IsDefault and Tags
fall back to their .get defaults. -/
def normalizeVpc (vpc : Dict) : Option Dict := do
  let vid ← vpc.lookup ("VpcId")
  let cidr ← vpc.lookup ("CidrBlock")
  let st ← vpc.lookup ("State")
  pure (("vpc_id", vid) :: ("cidr_block", cidr) :: ("state", st) ::
    ("is_default", (vpc.lookup ("IsDefault")).getD (.pbool false)) ::
    ("tags", (vpc.lookup ("Tags")).getD (.plist [])) :: [])

/-- Normalization of one raw subnet item (the collect_subnets comprehension
body). -/
def normalizeSubnet (subnet : Dict) : Option Dict := do
  let sid ← subnet.lookup ("SubnetId")
  let vid ← subnet.lookup ("VpcId")
  let cidr ← subnet.lookup ("CidrBlock")
  let az ← subnet.lookup ("AvailabilityZone")
  let ipc ← subnet.lookup ("AvailableIpAddressCount")
  pure (("subnet_id", sid) :: ("vpc_id", vid) :: ("cidr_block", cidr) ::
    ("availability_zone", az) :: ("available_ip_count", ipc) ::
    ("tags", (subnet.lookup ("Tags")).getD (.plist [])) :: [])

/-- Normalization of one raw security group item (the
collect_security_groups comprehension body): a missing VpcId degrades to
the sentinel string, the rule counts are the len of the permission lists. -/
def normalizeSG (sg : Dict) : Option Dict := do
  let gid ← sg.lookup ("GroupId")
  let gname ← sg.lookup ("GroupName")
  let desc ← sg.lookup ("Description")
  let ingress ← pvalLen ((sg.lookup ("IpPermissions")).getD (.plist []))
  let egress ← pvalLen ((sg.lookup ("IpPermissionsEgress")).getD (.plist []))
  pure (("sg_id", gid) :: ("sg_name", gname) ::
    ("vpc_id", (sg.lookup ("VpcId")).getD (.pstr ("N/A"))) ::
    ("description", desc) ::
    ("ingress_rules_count", .pint ingress) ::
    ("egress_rules_count", .pint egress) ::
    ("tags", (sg.lookup ("Tags")).getD (.plist [])) :: [])

/-- Embedding of collect_vpcs: an error from the describe call, or a
KeyError inside the comprehension, is caught and yields the empty list;
the collector itself never raises. -/
def collect_vpcs (resp : Except Err (List Dict)) : List Dict :=
  match resp with
  | .error _ => []
  | .ok vpcs =>
    match mapOpt normalizeVpc vpcs with
    | some recs => recs
    | none => []

/-- Embedding of collect_subnets, with the same failure isolation. -/
def collect_subnets (resp : Except Err (List Dict)) : List Dict :=
  match resp with
  | .error _ => []
  | .ok subnets =>
    match mapOpt normalizeSubnet subnets with
    | some recs => recs
    | none => []

/-- Embedding of collect_security_groups, with the same failure isolation. -/
def collect_security_groups (resp : Except Err (List Dict)) : List Dict :=
  match resp with
  | .error _ => []
  | .ok sgs =>
    match mapOpt normalizeSG sgs with
    | some recs => recs
    | none => []

/-- The work item fields the consumer reads from a decoded message. -/
structure SnsMessage where
  account_id : String
  account_name : String
  business_unit : PVal
  region : String
deriving Repr

/-- Embedding of the per-message decode steps of the consumer
lambda_handler and collect_network_data: parse the SQS body, take the
fabric envelope's Message string field, parse it, and read the work item
fields (business_unit via .get, defaulting to None). -/
def decode_record (body : List Char) : Except Err SnsMessage :=
  match ploadsFlat body with
  | none => .error { msg := "JSONDecodeError" }
  | some (.pdict message_body) =>
    match message_body.lookup ("Message") with
    | some (.pstr m) =>
      match ploadsFlat m.data with
      | none => .error { msg := "JSONDecodeError" }
      | some (.pdict sm) =>
        match sm.lookup ("account_id"), sm.lookup ("region"), sm.lookup ("account_name") with
        | some (.pstr aid), some (.pstr region), some (.pstr name) =>
          .ok { account_id := aid, account_name := name,
                business_unit := (sm.lookup ("business_unit")).getD .pnone,
                region := region }
        | _, _, _ => .error { msg := "KeyError" }
      | some _ => .error { msg := "TypeError" }
    | some _ => .error { msg := "TypeError" }
    | none => .error { msg := "KeyError" }
  | some _ => .error { msg := "TypeError" }

/-- The collection result dict of collect_network_data. -/
structure NetworkData where
  account_id : String
  account_name : String
  business_unit : PVal
  region : String
  collection_timestamp : String
  vpcs : List Dict
  subnets : List Dict
  security_groups : List Dict
deriving Repr

/-- Embedding of collect_network_data: resolve the client (a delegation
failure propagates to the caller), then run the three independent
collectors on their responses and assemble the result. -/
def collect_network_data (env : Env) (msg : SnsMessage) : Except Err NetworkData :=
  match get_ec2_client env msg.account_id msg.region with
  | .error e => .error e
  | .ok _client =>
    .ok { account_id := msg.account_id, account_name := msg.account_name,
          business_unit := msg.business_unit, region := msg.region,
          collection_timestamp := env.collection_now,
          vpcs := collect_vpcs env.vpcs_response,
          subnets := collect_subnets env.subnets_response,
          security_groups := collect_security_groups env.sgs_response }

/-- The shared metadata dict built once per work item by store_to_s3. -/
def base_metadata (nd : NetworkData) : Dict :=
  ("account_id", .pstr nd.account_id) ::
  ("account_name", .pstr nd.account_name) ::
  ("business_unit", nd.business_unit) ::
  ("region", .pstr nd.region) ::
  ("collection_timestamp", .pstr nd.collection_timestamp) :: []

/-- The S3 key f-string of store_flat_file. -/
def s3_key (pfx resource_type account_id region ts : String) : String :=
  pfx ++ resource_type ++ "/account=" ++ account_id ++ "/region=" ++ region ++
    "/data-" ++ ts ++ ".json"

/-- One completed S3 write: the partition key, the merged records and the
JSONL body that was put. -/
structure S3Write where
  resource_type : String
  key : String
  records : List Dict
  body : List Char
deriving Repr

/-- Embedding of store_flat_file: build the partitioned key, serialize the
records one JSON object per line, and attempt the put; a put failure is
re-raised to the caller. -/
def store_flat_file (pfx : String) (put : String → Except Err Unit)
    (records : List Dict) (resource_type account_id region ts : String) :
    Except Err S3Write :=
  let key := s3_key pfx resource_type account_id region ts
  let body := joinNL (records.map (fun r => pdumps (.pdict r)))
  match put key with
  | .ok _ =>
    .ok { resource_type := resource_type, key := key, records := records, body := body }
  | .error e => .error e

/-- The three sequential conditional writes of store_to_s3, one group per
resource type in source order: an empty group is skipped, a nonempty group
is merged record-by-record with the base metadata and written; a write
failure propagates and aborts the remaining groups. -/
def storeGroups (pfx : String) (put : String → Except Err Unit) (base : Dict)
    (account_id region ts : String) :
    List (String × List Dict) → Except Err (List S3Write)
  | [] => .ok []
  | g :: rest =>
    if g.2.isEmpty then storeGroups pfx put base account_id region ts rest
    else
      match store_flat_file pfx put (g.2.map (fun r => pyUpdate base r))
          g.1 account_id region ts with
      | .error e => .error e
      | .ok w => (storeGroups pfx put base account_id region ts rest).map (fun ws => w :: ws)

/-- The source-ordered resource type groups of one collection result. -/
def resource_groups (nd : NetworkData) : List (String × List Dict) :=
  ("vpcs", nd.vpcs) :: ("subnets", nd.subnets) :: ("security_groups", nd.security_groups) :: []

/-- Embedding of store_to_s3: one second-granularity timestamp is taken for
the whole work item, the shared metadata dict is built once, and each
non-empty resource-type group is merged and written in source order. -/
def store_to_s3 (pfx : String) (put : String → Except Err Unit) (now : UTCTime)
    (nd : NetworkData) : Except Err (List S3Write) :=
  let ts := strftimeTs now
  let base := base_metadata nd
  storeGroups pfx put base nd.account_id nd.region ts (resource_groups nd)

/-- Processing of one SQS record by the consumer lambda_handler loop body:
decode, collect, store; whichever step raises surfaces as the error. -/
def processRecord (env : Env) (body : List Char) : Except Err (List S3Write) :=
  match decode_record body with
  | .error e => .error e
  | .ok msg =>
    match collect_network_data env msg with
    | .error e => .error e
    | .ok nd => store_to_s3 env.pfx env.put_outcome env.store_now nd

/-- Whether processing one record raises. -/
def raises (m : Env × List Char) : Bool :=
  match processRecord m.1 m.2 with
  | .ok _ => false
  | .error _ => true

/-- The per-record try/except loop of the consumer lambda_handler with its
two counters. -/
def process_loop : Nat × Nat → List (Env × List Char) → Nat × Nat
  | acc, [] => acc
  | (processed, failed), m :: rest =>
    match processRecord m.1 m.2 with
    | .ok _ => process_loop (processed + 1, failed) rest
    | .error _ => process_loop (processed, failed + 1) rest

/-- Result of the consumer handler: the literal statusCode and the
JSON-dumped summary body. -/
structure HandlerResult where
  statusCode : Nat
  body : List Char
deriving Repr

/-- Embedding of the consumer lambda_handler: every record of the batch is
attempted in order, failures are caught and counted per message, and the
handler returns statusCode 200 with the aggregate counts. -/
def lambda_handler (msgs : List (Env × List Char)) : HandlerResult :=
  match process_loop (0, 0) msgs with
  | (processed, failed) =>
    { statusCode := 200,
      body := pdumps (.pdict
        (("processed", .pint processed) :: ("failed", .pint failed) :: [])) }

/-- Number of records of the batch whose processing raises. -/
def batch_failures (msgs : List (Env × List Char)) : Nat :=
  msgs.countP raises

/-- Number of records of the batch processed without a raise. -/
def batch_processed (msgs : List (Env × List Char)) : Nat :=
  msgs.countP (fun m => ! raises m)

theorem process_loop_spec :
    ∀ (msgs : List (Env × List Char)) (p f : Nat),
      process_loop (p, f) msgs = (p + batch_processed msgs, f + batch_failures msgs) := by
  intro msgs
  induction msgs with
  | nil => intro p f; simp [process_loop, batch_processed, batch_failures]
  | cons m rest ih =>
    intro p f
    cases h : processRecord m.1 m.2 with
    | ok ws =>
      have hr : raises m = false := by rw [raises, h]
      have hstep : process_loop (p, f) (m :: rest) = process_loop (p + 1, f) rest := by
        rw [process_loop, h]
      rw [hstep, ih]
      simp [batch_processed, batch_failures, List.countP_cons, hr, Prod.mk.injEq]
      omega
    | error e =>
      have hr : raises m = true := by rw [raises, h]
      have hstep : process_loop (p, f) (m :: rest) = process_loop (p, f + 1) rest := by
        rw [process_loop, h]
      rw [hstep, ih]
      simp [batch_processed, batch_failures, List.countP_cons, hr, Prod.mk.injEq]
      omega

end Consumer

namespace Fabric

/-- Modelled from the spec: the messaging fabric's delivery envelope is not
code of this repository (section 6, Batch delivery: each delivered message
wraps a fabric envelope containing the JSON-serialized WorkItem as an
inner string field).  The envelope is modelled as the standard
notification object whose Message field carries the published payload
string verbatim, surrounded by the usual string metadata fields. -/
def sns_sqs_envelope (message_id topic_arn ts : String) (message : String) : Dict :=
  ("Type", .pstr ("Notification")) ::
  ("MessageId", .pstr message_id) ::
  ("TopicArn", .pstr topic_arn) ::
  ("Message", .pstr message) ::
  ("Timestamp", .pstr ts) :: []

/-- The SQS record body delivered for one published payload: the fabric
envelope serialized as JSON, with the payload dumped exactly as
publish_to_sns dumps it. -/
def sqs_record_body (message_id topic_arn ts : String) (payload : Dict) : List Char :=
  pdumps (.pdict (sns_sqs_envelope message_id topic_arn ts
    (String.mk (pdumps (.pdict payload)))))

end Fabric

namespace Consumer

theorem storeGroups_spec (pfx : String) (put : String → Except Err Unit) (base : Dict)
    (aid region ts : String) :
    ∀ (gs : List (String × List Dict)) (ws : List S3Write),
      storeGroups pfx put base aid region ts gs = .ok ws →
      (∀ w ∈ ws, w.key = s3_key pfx w.resource_type aid region ts) ∧
      ws.map (fun w => (w.resource_type, w.records.length)) =
        (gs.filter (fun g => ! g.2.isEmpty)).map (fun g => (g.1, g.2.length)) ∧
      (∀ w ∈ ws, w.records ≠ [] ∧
        w.body = joinNL (w.records.map (fun r => pdumps (.pdict r)))) := by
  intro gs
  induction gs with
  | nil =>
    intro ws hws
    rw [storeGroups] at hws
    injection hws with h
    subst h
    exact ⟨by simp, by simp, by simp⟩
  | cons g rest ih =>
    intro ws hws
    rw [storeGroups] at hws
    by_cases hemp : g.2.isEmpty
    · rw [if_pos hemp] at hws
      obtain ⟨hk, hm, hrb⟩ := ih ws hws
      refine ⟨hk, ?_, hrb⟩
      rw [List.filter_cons]
      simp only [hemp, Bool.not_true, if_false]
      exact hm
    · rw [if_neg hemp] at hws
      simp only [store_flat_file] at hws
      cases hput : put (s3_key pfx g.1 aid region ts) with
      | error e =>
        rw [hput] at hws
        simp [Except.map] at hws
      | ok u =>
        rw [hput] at hws
        cases hrest : storeGroups pfx put base aid region ts rest with
        | error e =>
          rw [hrest] at hws
          simp [Except.map] at hws
        | ok ws2 =>
          rw [hrest] at hws
          simp only [Except.map] at hws
          injection hws with h
          subst h
          obtain ⟨hk, hm, hrb⟩ := ih ws2 hrest
          refine ⟨?_, ?_, ?_⟩
          · intro w hw
            rcases List.mem_cons.mp hw with hw0 | hw2
            · subst hw0
              rfl
            · exact hk w hw2
          · rw [List.filter_cons]
            simp only [hemp, Bool.not_false, if_true, List.map_cons]
            rw [hm]
            simp
          · intro w hw
            rcases List.mem_cons.mp hw with hw0 | hw2
            · subst hw0
              constructor
              · intro hcontra
                apply hemp
                have hnil : g.2 = [] := by
                  simpa using congrArg List.length hcontra
                rw [hnil]
                rfl
              · simp [List.map_map]
            · exact hrb w hw2

end Consumer

theorem countP_bool_split {α : Type} (p : α → Bool) (l : List α) :
    l.countP (fun a => ! p a) + l.countP p = l.length := by
  induction l with
  | nil => rfl
  | cons a l ih =>
    rw [List.countP_cons, List.countP_cons]
    cases h : p a <;> simp [h] <;> omega

theorem data_mk (l : List Char) : (String.mk l).data = l := rfl

theorem isFlatVal_optStrVal (o : Option String) : isFlatVal (Producer.optStrVal o) = true := by
  cases o <;> rfl

theorem decode_record_of_parsed (body : List Char) (mb sm : Dict) (m : String)
    (aid region name : String)
    (h1 : ploadsFlat body = some (.pdict mb))
    (h2 : mb.lookup ("Message") = some (.pstr m))
    (h3 : ploadsFlat m.data = some (.pdict sm))
    (h4 : sm.lookup ("account_id") = some (.pstr aid))
    (h5 : sm.lookup ("region") = some (.pstr region))
    (h6 : sm.lookup ("account_name") = some (.pstr name)) :
    Consumer.decode_record body =
      .ok { account_id := aid, account_name := name,
            business_unit := (sm.lookup ("business_unit")).getD .pnone,
            region := region } := by
  simp only [Consumer.decode_record, h1, h2, h3, h4, h5, h6]

/-- Claim C1 (amended): in the Record Materializer's merge of the shared
envelope into a resource record (the record literal that double-splats the
base metadata and then the resource dict in store_to_s3), the RESOURCE
fields take precedence on any key collision, because the later unpacking
wins in a Python dict literal; envelope fields whose keys do not collide,
and all resource fields, pass through into the merged record unchanged. -/
theorem c1_merge_resource_fields_win (nd : Consumer.NetworkData) (rec : Dict) (k : String) :
    (pyUpdate (Consumer.base_metadata nd) rec).lookup k =
      ((rec.lookup k).or ((Consumer.base_metadata nd).lookup k)) :=
  pyUpdate_lookup (Consumer.base_metadata nd) rec k

/-- A concrete collection result used to exhibit the merge precedence. -/
def c1nd : Consumer.NetworkData :=
  { account_id := "111111111111", account_name := "prod",
    business_unit := .pstr ("bu"), region := "us-west-2",
    collection_timestamp := "2024-01-01T00:00:00Z",
    vpcs := [], subnets := [], security_groups := [] }

/-- Claim C1 counterexample: for the envelope of an account with id
111111111111 and a resource record that itself carries the colliding key
account_id with value 999999999999, the merged record holds the RESOURCE
value, not the envelope value, so the envelope does not take precedence as
the claim states. -/
theorem c1_counterexample :
    (pyUpdate (Consumer.base_metadata c1nd)
        (("account_id", PVal.pstr ("999999999999")) :: [])).lookup ("account_id") =
      some (.pstr ("999999999999")) ∧
    (Consumer.base_metadata c1nd).lookup ("account_id") =
      some (.pstr ("111111111111")) ∧
    ("999999999999" : String) ≠ ("111111111111" : String) :=
  ⟨rfl, rfl, by decide⟩

/-- Claim C2: for an active account whose regions attribute is a Python
set built from an enumeration of region names (the registry's string-set
attribute), the Work Expander yields exactly one work item per distinct
region: the produced regions are pairwise distinct, they are exactly the
members of the enumeration, and their number is the number of distinct
entries; in particular duplicates in the enumeration collapse. -/
theorem c2_expander_set_dedup (a : Producer.Account) (src : List String)
    (hactive : Producer.is_active a = true)
    (hregions : a.regions = some (Producer.pySet src)) :
    (Producer.expand_account_regions a).length = src.dedup.length ∧
    ((Producer.expand_account_regions a).map Prod.snd).Nodup ∧
    (∀ r, r ∈ (Producer.expand_account_regions a).map Prod.snd ↔ r ∈ src) := by
  have hmap : Producer.expand_account_regions a = src.dedup.map (fun r => (a, r)) := by
    rw [Producer.expand_account_regions, hregions]
    rfl
  rw [hmap]
  have hsnd : (src.dedup.map (fun r => (a, r))).map Prod.snd = src.dedup := by
    simp
  refine ⟨by simp, ?_, ?_⟩
  · rw [hsnd]
    exact List.nodup_dedup src
  · intro r
    rw [hsnd]
    exact List.mem_dedup

/-- The active account of the spec's set-deduplication example. -/
def c2acct : Producer.Account :=
  { account_id := "123456789012", account_name := some ("acct"),
    business_unit := none, status := some ("Active"),
    regions := some (Producer.pySet
      (("us-east-1" : String) :: ("us-east-1" : String) :: ("eu-west-1" : String) :: [])) }

theorem c2_witness : (Producer.expand_account_regions c2acct).length = 2 := by
  have h := c2_expander_set_dedup c2acct
    (("us-east-1" : String) :: ("us-east-1" : String) :: ("eu-west-1" : String) :: [])
    (by decide) rfl
  exact h.1.trans (by rfl)

/-- Claim C9: when the work item's account equals the collector's own
resolved identity, get_ec2_client returns the same-identity client scoped
to the requested region, and it does so for every possible delegation
outcome in the environment: the assume-role path is never consulted. -/
theorem c9_same_account_no_delegation (env : Consumer.Env) (account_id region : String)
    (h : account_id = env.caller_identity) :
    Consumer.get_ec2_client env account_id region =
      .ok (.sameIdentity region) := by
  have hb : (account_id == env.caller_identity) = true := by simp [h]
  rw [Consumer.get_ec2_client, if_pos hb]

/-- A consumer environment whose delegation outcome is a failure: with the
same-account path taken, this failure is never observed. -/
def c9env : Consumer.Env :=
  { caller_identity := "222222222222",
    assume_role_result := .error { msg := "AccessDenied" },
    vpcs_response := .ok [], subnets_response := .ok [], sgs_response := .ok [],
    collection_now := "2024-01-01T00:00:00Z",
    store_now := { year := 2024, month := 1, day := 1, hour := 0, minute := 0, second := 0 },
    put_outcome := fun _ => .ok (), pfx := "network-data/" }

theorem c9_witness :
    Consumer.get_ec2_client c9env ("222222222222") ("eu-west-1") =
      .ok (.sameIdentity ("eu-west-1")) :=
  c9_same_account_no_delegation c9env ("222222222222") ("eu-west-1") rfl

/-- Claim C5: each of the three collectors is a total function of its own
query outcome only.  When its query raises it returns the empty sequence;
when the query succeeds and every item normalizes, it returns the
normalized records.  Moreover collect_network_data assembles each resource
type from its own collector's response, so one resource type's failure
cannot affect the others for the same work item. -/
theorem c5_collectors_isolated (e : Err) (raw : List Dict) :
    (Consumer.collect_vpcs (.error e) = [] ∧
     Consumer.collect_subnets (.error e) = [] ∧
     Consumer.collect_security_groups (.error e) = []) ∧
    (∀ recs, Consumer.mapOpt Consumer.normalizeVpc raw = some recs →
      Consumer.collect_vpcs (.ok raw) = recs) ∧
    (∀ recs, Consumer.mapOpt Consumer.normalizeSubnet raw = some recs →
      Consumer.collect_subnets (.ok raw) = recs) ∧
    (∀ recs, Consumer.mapOpt Consumer.normalizeSG raw = some recs →
      Consumer.collect_security_groups (.ok raw) = recs) ∧
    (∀ (env : Consumer.Env) (msg : Consumer.SnsMessage) (nd : Consumer.NetworkData),
      Consumer.collect_network_data env msg = .ok nd →
      nd.vpcs = Consumer.collect_vpcs env.vpcs_response ∧
      nd.subnets = Consumer.collect_subnets env.subnets_response ∧
      nd.security_groups = Consumer.collect_security_groups env.sgs_response) := by
  refine ⟨⟨rfl, rfl, rfl⟩, ?_, ?_, ?_, ?_⟩
  · intro recs h
    simp [Consumer.collect_vpcs, h]
  · intro recs h
    simp [Consumer.collect_subnets, h]
  · intro recs h
    simp [Consumer.collect_security_groups, h]
  · intro env msg nd h
    rw [Consumer.collect_network_data] at h
    cases hc : Consumer.get_ec2_client env msg.account_id msg.region with
    | error e2 =>
      rw [hc] at h
      simp at h
    | ok c =>
      rw [hc] at h
      injection h with h
      subst h
      exact ⟨rfl, rfl, rfl⟩

/-- A concrete raw describe-vpcs response with one item. -/
def c5raw : List Dict :=
  (("VpcId", PVal.pstr ("vpc-1")) :: ("CidrBlock", PVal.pstr ("10.0.0.0/16")) ::
    ("State", PVal.pstr ("available")) :: []) :: []

theorem c5_witness :
    Consumer.collect_vpcs (.error { msg := "boom" }) = [] ∧
    Consumer.collect_vpcs (.ok c5raw) =
      ((("vpc_id", PVal.pstr ("vpc-1")) :: ("cidr_block", PVal.pstr ("10.0.0.0/16")) ::
        ("state", PVal.pstr ("available")) :: ("is_default", PVal.pbool false) ::
        ("tags", PVal.plist []) :: []) :: []) := by
  have h := c5_collectors_isolated { msg := "boom" } c5raw
  exact ⟨h.1.1, h.2.1 _ rfl⟩

/-- Claim C3: for every batch, the consumer handler attempts all K records
(the counts are computed over the whole batch, no batch-wide abort) and
returns statusCode 200 with aggregate counts processed = K - J and
failed = J, where J is the number of records whose decode, collection or
write raises. -/
theorem c3_batch_counts (msgs : List (Consumer.Env × List Char)) :
    Consumer.lambda_handler msgs =
      { statusCode := 200,
        body := pdumps (.pdict
          (("processed",
             .pint ((msgs.length - Consumer.batch_failures msgs : Nat) : Int)) ::
           ("failed", .pint (Consumer.batch_failures msgs)) :: [])) } := by
  have hloop := Consumer.process_loop_spec msgs 0 0
  have hsum := countP_bool_split Consumer.raises msgs
  have hproc : Consumer.batch_processed msgs = msgs.length - Consumer.batch_failures msgs := by
    rw [Consumer.batch_processed, Consumer.batch_failures]
    omega
  rw [Consumer.lambda_handler, hloop]
  simp only [Nat.zero_add, hproc]

/-- Claim C10: the consumer handler is a total function of the batch: for
every input batch it returns statusCode 200 and a body whose processed and
failed counts sum to the number of records, even when every record fails. -/
theorem c10_handler_never_raises (msgs : List (Consumer.Env × List Char)) :
    (Consumer.lambda_handler msgs).statusCode = 200 ∧
    (Consumer.lambda_handler msgs).body = pdumps (.pdict
      (("processed", .pint (Consumer.batch_processed msgs)) ::
       ("failed", .pint (Consumer.batch_failures msgs)) :: [])) ∧
    Consumer.batch_processed msgs + Consumer.batch_failures msgs = msgs.length := by
  have hloop := Consumer.process_loop_spec msgs 0 0
  have hsum := countP_bool_split Consumer.raises msgs
  refine ⟨?_, ?_, ?_⟩
  · rw [Consumer.lambda_handler, hloop]
  · rw [Consumer.lambda_handler, hloop]
    simp only [Nat.zero_add]
  · exact hsum

/-- Claim C4: when the registry scan succeeds, the Dispatcher attempts
every expanded work item independently (publish failures are caught and
counted per item, and the loop continues), and the summary reports
published = N - M and failed = M, for N the number of expanded work items
and M the number of failing publish attempts. -/
theorem c4_dispatch_counts (env : Producer.Env) (accounts : List Producer.Account)
    (hscan : env.scan_result = .ok accounts) :
    (Producer.lambda_handler env).statusCode = 200 ∧
    (Producer.lambda_handler env).body.lookup ("total_events_published") =
      some (.pint (((((Producer.filter_active_accounts accounts).map
            Producer.expand_account_regions).flatten.length -
          Producer.pubErrCount env.publish_outcome 0
            (((Producer.filter_active_accounts accounts).map
              Producer.expand_account_regions).flatten.length) : Nat)) : Int)) ∧
    (Producer.lambda_handler env).body.lookup ("failed_events") =
      some (.pint (Producer.pubErrCount env.publish_outcome 0
        (((Producer.filter_active_accounts accounts).map
          Producer.expand_account_regions).flatten.length))) := by
  have htot := Producer.pubCounts_total env.publish_outcome
    (((Producer.filter_active_accounts accounts).map
      Producer.expand_account_regions).flatten.length) 0
  have hok : Producer.pubOkCount env.publish_outcome 0
      (((Producer.filter_active_accounts accounts).map
        Producer.expand_account_regions).flatten.length) =
      ((Producer.filter_active_accounts accounts).map
        Producer.expand_account_regions).flatten.length -
      Producer.pubErrCount env.publish_outcome 0
        (((Producer.filter_active_accounts accounts).map
          Producer.expand_account_regions).flatten.length) := by
    omega
  simp only [Producer.lambda_handler, hscan, Producer.publish_loop_spec, Nat.zero_add, hok]
  refine ⟨?_, ?_, ?_⟩ <;> trivial

/-- The active account of the dispatch-counts witness: three distinct
regions, so three work items. -/
def c4acct : Producer.Account :=
  { account_id := "333333333333", account_name := some ("dev"),
    business_unit := some ("eng"), status := some ("active"),
    regions := some (Producer.pySet
      (("us-east-1" : String) :: ("us-west-2" : String) :: ("eu-west-1" : String) :: [])) }

/-- A dispatch environment whose second publish attempt fails. -/
def c4env : Producer.Env :=
  { scan_result := .ok (c4acct :: []),
    publish_outcome := fun n => if n == 1 then .error { msg := "SNSFailure" } else .ok (),
    now := "2024-05-01T00:00:00Z" }

theorem c4_witness :
    (Producer.lambda_handler c4env).statusCode = 200 ∧
    (Producer.lambda_handler c4env).body.lookup ("total_events_published") =
      some (.pint 2) ∧
    (Producer.lambda_handler c4env).body.lookup ("failed_events") = some (.pint 1) := by
  have h := c4_dispatch_counts c4env (c4acct :: []) rfl
  exact ⟨h.1, h.2.1.trans (by rfl), h.2.2.trans (by rfl)⟩

/-- Claim C6: every write produced from one work item carries the storage
key built exactly as prefix, resource type, account=, region= and data-
segments, with one shared second-granularity timestamp (the single
strftime of the clock reading taken once in store_to_s3) used by every
resource-type group of the item. -/
theorem c6_partition_key (pfx : String) (put : String → Except Err Unit)
    (now : UTCTime) (nd : Consumer.NetworkData) (ws : List Consumer.S3Write)
    (hok : Consumer.store_to_s3 pfx put now nd = .ok ws) :
    ∀ w ∈ ws, w.key =
      pfx ++ w.resource_type ++ "/account=" ++ nd.account_id ++ "/region=" ++
        nd.region ++ "/data-" ++ strftimeTs now ++ ".json" := by
  rw [Consumer.store_to_s3] at hok
  have h := Consumer.storeGroups_spec pfx put (Consumer.base_metadata nd)
    nd.account_id nd.region (strftimeTs now) (Consumer.resource_groups nd) ws hok
  intro w hw
  exact h.1 w hw

/-- Claim C7: the writer runs exactly once per resource type with a
non-empty record list (in source order) and never for an empty one, and
each written body is one newline-delimited JSON line per record (given
that no serialized record contains a raw newline, which holds for the
control-character-free strings json.dumps emits). -/
theorem c7_writer_nonempty_groups (pfx : String) (put : String → Except Err Unit)
    (now : UTCTime) (nd : Consumer.NetworkData) (ws : List Consumer.S3Write)
    (hok : Consumer.store_to_s3 pfx put now nd = .ok ws)
    (hnl : ∀ w ∈ ws, ∀ r ∈ w.records, (pdumps (.pdict r)).count '\n' = 0) :
    ws.map (fun w => (w.resource_type, w.records.length)) =
      ((Consumer.resource_groups nd).filter (fun g => ! g.2.isEmpty)).map
        (fun g => (g.1, g.2.length)) ∧
    ∀ w ∈ ws, w.records ≠ [] ∧ lineCount w.body = w.records.length := by
  rw [Consumer.store_to_s3] at hok
  obtain ⟨hk, hm, hrb⟩ := Consumer.storeGroups_spec pfx put (Consumer.base_metadata nd)
    nd.account_id nd.region (strftimeTs now) (Consumer.resource_groups nd) ws hok
  refine ⟨hm, ?_⟩
  intro w hw
  obtain ⟨hne, hbody⟩ := hrb w hw
  refine ⟨hne, ?_⟩
  rw [lineCount, hbody, joinNL_count]
  · rw [List.length_map]
    have hpos : 0 < w.records.length := List.length_pos.mpr hne
    omega
  · simp [hne]
  · intro p hp
    obtain ⟨r, hr, rfl⟩ := List.mem_map.mp hp
    exact hnl w hw r hr

/-- The end-to-end example collection result: two VPC records, no subnet
records, one security group record. -/
def ndEx : Consumer.NetworkData :=
  { account_id := "111111111111", account_name := "prod",
    business_unit := .pnone, region := "us-west-2",
    collection_timestamp := "2024-05-01T12:00:00Z",
    vpcs := (("vpc_id", PVal.pstr ("vpc-1")) :: []) ::
      (("vpc_id", PVal.pstr ("vpc-2")) :: []) :: [],
    subnets := [],
    security_groups := (("sg_id", PVal.pstr ("sg-1")) :: []) :: [] }

/-- A put oracle that always succeeds. -/
def putEx : String → Except Err Unit := fun _ => .ok ()

/-- The example clock reading for the store step. -/
def t0Ex : UTCTime :=
  { year := 2024, month := 5, day := 1, hour := 12, minute := 0, second := 0 }

/-- The writes store_to_s3 performs on the example collection result. -/
def wsEx : List Consumer.S3Write :=
  { resource_type := "vpcs",
    key := Consumer.s3_key ("pref/") ("vpcs") ("111111111111") ("us-west-2") (strftimeTs t0Ex),
    records := ndEx.vpcs.map (fun r => pyUpdate (Consumer.base_metadata ndEx) r),
    body := joinNL ((ndEx.vpcs.map (fun r => pyUpdate (Consumer.base_metadata ndEx) r)).map
      (fun r => pdumps (.pdict r))) } ::
  { resource_type := "security_groups",
    key := Consumer.s3_key ("pref/") ("security_groups") ("111111111111") ("us-west-2")
      (strftimeTs t0Ex),
    records := ndEx.security_groups.map (fun r => pyUpdate (Consumer.base_metadata ndEx) r),
    body := joinNL ((ndEx.security_groups.map
      (fun r => pyUpdate (Consumer.base_metadata ndEx) r)).map
      (fun r => pdumps (.pdict r))) } :: []

theorem c6_witness :
    wsEx.all (fun w => w.key ==
      ("pref/" : String) ++ w.resource_type ++ "/account=" ++ ndEx.account_id ++
        "/region=" ++ ndEx.region ++ "/data-" ++ strftimeTs t0Ex ++ ".json") = true := by
  have h := c6_partition_key ("pref/") putEx t0Ex ndEx wsEx rfl
  rw [List.all_eq_true]
  intro w hw
  exact beq_iff_eq.mpr (h w hw)

set_option maxRecDepth 8000 in
theorem c7_witness :
    wsEx.map (fun w => (w.resource_type, w.records.length)) =
      (("vpcs", 2) :: ("security_groups", 1) :: []) ∧
    wsEx.all (fun w => lineCount w.body == w.records.length) = true := by
  have h := c7_writer_nonempty_groups ("pref/") putEx t0Ex ndEx wsEx rfl
    (by
      intro w hw r hr
      fin_cases hw <;> fin_cases hr <;> rfl)
  exact ⟨h.1.trans (by rfl), by decide⟩

/-- Claim C8: a work item payload encoded by the Dispatcher (JSON-dumped
and published), wrapped by the fabric envelope as its inner Message string
field, and decoded by the Batch Consumer (outer JSON parse, Message
unwrap, inner JSON parse) reproduces the payload's account_id,
account_name, business_unit and region fields exactly. -/
theorem c8_roundtrip (account : Producer.Account)
    (region now message_id topic_arn ets : String) :
    Consumer.decode_record (Fabric.sqs_record_body message_id topic_arn ets
      (Producer.create_event_payload account region now)) =
      .ok { account_id := account.account_id,
            account_name := account.account_name.getD ("Unknown"),
            business_unit := Producer.optStrVal account.business_unit,
            region := region } := by
  have hflatPayload : FlatDict (Producer.create_event_payload account region now) := by
    intro kv hkv
    rw [Producer.create_event_payload] at hkv
    simp only [List.mem_cons, List.not_mem_nil, or_false] at hkv
    rcases hkv with rfl | rfl | rfl | rfl | rfl
    · rfl
    · rfl
    · exact isFlatVal_optStrVal _
    · rfl
    · rfl
  have hmsg : ploadsFlat
      (String.mk (pdumps (.pdict (Producer.create_event_payload account region now)))).data =
      some (.pdict (Producer.create_event_payload account region now)) := by
    rw [data_mk]
    exact ploads_round _ hflatPayload
  have hflatEnv : FlatDict (Fabric.sns_sqs_envelope message_id topic_arn ets
      (String.mk (pdumps (.pdict (Producer.create_event_payload account region now))))) := by
    intro kv hkv
    rw [Fabric.sns_sqs_envelope] at hkv
    simp only [List.mem_cons, List.not_mem_nil, or_false] at hkv
    rcases hkv with rfl | rfl | rfl | rfl | rfl <;> rfl
  have henv : ploadsFlat (Fabric.sqs_record_body message_id topic_arn ets
      (Producer.create_event_payload account region now)) =
      some (.pdict (Fabric.sns_sqs_envelope message_id topic_arn ets
        (String.mk (pdumps (.pdict (Producer.create_event_payload account region now)))))) := by
    rw [Fabric.sqs_record_body]
    exact ploads_round _ hflatEnv
  have hdec := decode_record_of_parsed
    (Fabric.sqs_record_body message_id topic_arn ets
      (Producer.create_event_payload account region now))
    (Fabric.sns_sqs_envelope message_id topic_arn ets
      (String.mk (pdumps (.pdict (Producer.create_event_payload account region now)))))
    (Producer.create_event_payload account region now)
    (String.mk (pdumps (.pdict (Producer.create_event_payload account region now))))
    account.account_id region (account.account_name.getD ("Unknown"))
    henv rfl hmsg rfl rfl rfl
  rw [hdec]
  rfl
